import Mathlib

/-
  Shallow embedding of the enet-rs safe wrapper layer
  (src/address.rs, src/packet.rs, src/host.rs).

  Machine integers are modelled as Nat with explicit bounds where the Rust
  types (u8, u16, u32, usize, i32 as Int) guarantee them.  The byte-order
  intrinsics u32::to_be and u32::from_be are modelled for a little-endian
  host platform, where both are a 32-bit byte swap.
-/

namespace EnetRs

/-- The 32-bit byte swap: semantics of u32::to_be and u32::from_be on a
little-endian platform, applied to a u32 value (a Nat below 2^32). -/
def bswap32 (x : Nat) : Nat :=
  x % 256 * 16777216 + x / 256 % 256 * 65536 + x / 65536 % 256 * 256 + x / 16777216 % 256

/-- Rust u32.to_be on a little-endian host. -/
def u32_to_be (x : Nat) : Nat := bswap32 x

/-- Rust u32.from_be on a little-endian host. -/
def u32_from_be (x : Nat) : Nat := bswap32 x

/-- The engine native address (enet_sys ENetAddress): a u32 host field and a
u16 port field. -/
structure ENetAddress where
  host : Nat
  port : Nat
deriving DecidableEq

/-- The wrapper Address (src/address.rs): an IPv4 address (four u8 octets,
first octet of the dotted notation first) and a u16 port, as stored by
SocketAddrV4. -/
structure Address where
  o0 : Nat
  o1 : Nat
  o2 : Nat
  o3 : Nat
  port : Nat
deriving DecidableEq

/-- Address::new composed with Ipv4Addr::new over explicit octets. -/
def Address.new (ip : Nat × Nat × Nat × Nat) (port : Nat) : Address :=
  ⟨ip.1, ip.2.1, ip.2.2.1, ip.2.2.2, port⟩

/-- The (&self.ip().octets() as &[u8]).read_u32::<NetworkEndian>() step of
Address::to_enet_address: the four octets read as a big-endian u32. -/
def readU32NetworkEndian (a : Address) : Nat :=
  a.o0 * 16777216 + a.o1 * 65536 + a.o2 * 256 + a.o3

/-- Address::to_enet_address (src/address.rs lines 53-61): host is the
network-endian read of the octets followed by .to_be(); port is copied. -/
def Address.to_enet_address (a : Address) : ENetAddress :=
  ⟨u32_to_be (readU32NetworkEndian a), a.port⟩

/-- Address::from_enet_address (src/address.rs lines 63-73): the octets are
(host >> 0) as u8, (host >> 8) as u8, (host >> 16) as u8, (host >> 24) as u8,
in that order; port is copied. -/
def Address.from_enet_address (addr : ENetAddress) : Address :=
  ⟨addr.host % 256, addr.host / 256 % 256, addr.host / 65536 % 256,
    addr.host / 16777216 % 256, addr.port⟩

/-- Ipv4Addr::from (u32): the big-endian bytes of the value, first octet the
most significant byte, each extracted with an as-u8 cast. -/
def ipv4AddrFromU32 (v : Nat) : Nat × Nat × Nat × Nat :=
  (v / 16777216 % 256, v / 65536 % 256, v / 256 % 256, v % 256)

/-- Address::from_hostname (src/address.rs lines 25-41).  The engine call
enet_address_set_host is external (enet_sys; spec section 6: resolve-host →
0 success / nonzero native error); it is modelled by its outputs: the result
code res and the host field it wrote.  The port field of the out-struct is
initialised to the caller port and not touched by the engine. -/
def Address.from_hostname (res : Int) (resolvedHost : Nat) (port : Nat) :
    Except Int Address :=
  if res ≠ 0 then Except.error res
  else Except.ok (Address.new (ipv4AddrFromU32 (u32_from_be resolvedHost)) port)

/-- The engine packet flag ENET_PACKET_FLAG_RELIABLE = 1 shl 0, from the
ENet headers re-exported by enet_sys. -/
def ENET_PACKET_FLAG_RELIABLE : Nat := 1

/-- The engine packet flag ENET_PACKET_FLAG_UNSEQUENCED = 1 shl 1, from the
ENet headers re-exported by enet_sys. -/
def ENET_PACKET_FLAG_UNSEQUENCED : Nat := 2

/-- PacketMode (src/packet.rs): the three supported delivery modes. -/
inductive PacketMode where
  | UnreliableSequenced
  | UnreliableUnsequenced
  | ReliableSequenced
deriving DecidableEq, Fintype

/-- PacketMode::is_reliable (src/packet.rs lines 28-35). -/
def PacketMode.is_reliable : PacketMode → Bool
  | PacketMode.UnreliableSequenced => false
  | PacketMode.UnreliableUnsequenced => false
  | PacketMode.ReliableSequenced => true

/-- PacketMode::is_sequenced (src/packet.rs lines 37-44). -/
def PacketMode.is_sequenced : PacketMode → Bool
  | PacketMode.UnreliableSequenced => true
  | PacketMode.UnreliableUnsequenced => false
  | PacketMode.ReliableSequenced => true

/-- PacketMode::to_sys_flags (src/packet.rs lines 48-54). -/
def PacketMode.to_sys_flags : PacketMode → Nat
  | PacketMode.UnreliableSequenced => 0
  | PacketMode.UnreliableUnsequenced => ENET_PACKET_FLAG_UNSEQUENCED
  | PacketMode.ReliableSequenced => ENET_PACKET_FLAG_RELIABLE

/-- PacketMode::from_sys_flags (src/packet.rs lines 56-63): the wildcard arm
is a panic (Invalid sysflag), modelled as none. -/
def PacketMode.from_sys_flags (sys_flags : Nat) : Option PacketMode :=
  if sys_flags = 0 then some PacketMode.UnreliableSequenced
  else if sys_flags = ENET_PACKET_FLAG_UNSEQUENCED then some PacketMode.UnreliableUnsequenced
  else if sys_flags = ENET_PACKET_FLAG_RELIABLE then some PacketMode.ReliableSequenced
  else none

/-- PacketMode::from_string (src/packet.rs lines 65-73). -/
def PacketMode.from_string (string : String) : Option PacketMode :=
  if string = "unreliable" then some PacketMode.UnreliableSequenced
  else if string = "unsequenced" then some PacketMode.UnreliableUnsequenced
  else if string = "reliable" then some PacketMode.ReliableSequenced
  else none

/-- The engine protocol constant ENET_PROTOCOL_MAXIMUM_CHANNEL_COUNT = 255,
from the ENet headers re-exported by enet_sys. -/
def ENET_PROTOCOL_MAXIMUM_CHANNEL_COUNT : Nat := 255

/-- ChannelLimit (src/host.rs): a channel limit or the engine maximum. -/
inductive ChannelLimit where
  | Maximum
  | Limited (l : Nat)
deriving DecidableEq

/-- ChannelLimit::to_enet_usize (src/host.rs lines 30-36). -/
def ChannelLimit.to_enet_usize : ChannelLimit → Nat
  | ChannelLimit.Maximum => 0
  | ChannelLimit.Limited l => l

/-- ChannelLimit::from_enet_usize (src/host.rs lines 38-45): the stored
value MAX_COUNT decodes to Maximum, a stored 0 is a panic (modelled none),
any other value decodes to Limited. -/
def ChannelLimit.from_enet_usize (enet_val : Nat) : Option ChannelLimit :=
  if enet_val = ENET_PROTOCOL_MAXIMUM_CHANNEL_COUNT then some ChannelLimit.Maximum
  else if enet_val = 0 then none
  else some (ChannelLimit.Limited enet_val)

/-- BandwidthLimit (src/host.rs): a bandwidth limit in bytes per second or
unlimited. -/
inductive BandwidthLimit where
  | Unlimited
  | Limited (l : Nat)
deriving DecidableEq

/-- BandwidthLimit::to_enet_u32 (src/host.rs lines 48-53). -/
def BandwidthLimit.to_enet_u32 : BandwidthLimit → Nat
  | BandwidthLimit.Unlimited => 0
  | BandwidthLimit.Limited l => l

/-- BandwidthLimit::from_enet_u32 (src/host.rs lines 56-62): 0 is unlimited,
anything else is Limited; total, no failing branch. -/
def BandwidthLimit.from_enet_u32 (enet_val : Nat) : BandwidthLimit :=
  if enet_val = 0 then BandwidthLimit.Unlimited
  else BandwidthLimit.Limited enet_val

/-- Modelled from the spec: the Event type (src/event.rs is not under src/);
spec section 3 gives the tagged union Connected, Disconnected, Received
(peer reference, and for Received also the packet bytes). -/
inductive Event where
  | connected (peer : Nat)
  | disconnected (peer : Nat)
  | received (peer : Nat) (packet : List Nat)
deriving DecidableEq

/-- The engine out-event struct (enet_sys ENetEvent), reduced to the fields
the dispatch needs: the event-type tag (ENET_EVENT_TYPE_NONE = 0,
CONNECT = 1, DISCONNECT = 2, RECEIVE = 3), the peer and the data. -/
structure SysEvent where
  kind : Nat
  peer : Nat
  data : List Nat
deriving DecidableEq

/-- Modelled from the spec: Event::from_sys_event (src/event.rs is not under
src/); decodes the engine out-event into the spec section 3 union, with the
no-event tag decoding to none. -/
def Event.from_sys_event (ev : SysEvent) : Option Event :=
  if ev.kind = 1 then some (Event.connected ev.peer)
  else if ev.kind = 2 then some (Event.disconnected ev.peer)
  else if ev.kind = 3 then some (Event.received ev.peer ev.data)
  else none

/-- Host::service (src/host.rs lines 169-184): dispatch on the engine result
code of enet_host_service.  The engine call is external; it is modelled by
its outputs: the signed result code r and the out-event it wrote.  The
wildcard panic arm of the source match is unreachable over the integers. -/
def Host.service (r : Int) (ev : SysEvent) : Except Int (Option Event) :=
  if 0 < r then Except.ok (Event.from_sys_event ev)
  else if r = 0 then Except.ok none
  else Except.error r

/-- Host::check_events (src/host.rs lines 187-199): the same dispatch on the
engine result code of enet_host_check_events. -/
def Host.check_events (r : Int) (ev : SysEvent) : Except Int (Option Event) :=
  if 0 < r then Except.ok (Event.from_sys_event ev)
  else if r = 0 then Except.ok none
  else Except.error r

/-- The Host peer table as seen by Host::get_peer (src/host.rs lines
143-148): the raw peers pointer is modelled as unbounded engine memory (a
function from slot index to peer), together with the peerCount field. -/
structure Host where
  peerCount : Nat
  mem : Nat → Nat

/-- Host::peer_count (src/host.rs lines 138-140). -/
def Host.peer_count (h : Host) : Nat := h.peerCount

/-- Host::get_peer (src/host.rs lines 143-148): builds the slice
slice::from_raw_parts_mut(peers, peerCount) and indexes it with
raw_peers[index]; Rust slice indexing is bounds-checked and panics out of
range (modelled none). -/
def Host.get_peer (h : Host) (index : Nat) : Option Nat :=
  if index < h.peerCount then some (h.mem index) else none

/-- Following the words of the spec claim, not the source: a bounds-unchecked
index straight into engine memory. -/
def Host.get_peer_unchecked (h : Host) (index : Nat) : Nat := h.mem index

/-- Concrete engine memory used by the C8 counterexample and witness: slot i
holds peer i + 10. -/
def demoMem : Nat → Nat := fun i => i + 10

end EnetRs

namespace EnetRs

/-- Extraction of the four bytes of a u32 assembled from bytes a b c d
(most significant first). -/
theorem bytes_extract (a b c d : Nat) (ha : a < 256) (hb : b < 256)
    (hc : c < 256) (hd : d < 256) :
    (a * 16777216 + b * 65536 + c * 256 + d) % 256 = d ∧
    (a * 16777216 + b * 65536 + c * 256 + d) / 256 % 256 = c ∧
    (a * 16777216 + b * 65536 + c * 256 + d) / 65536 % 256 = b ∧
    (a * 16777216 + b * 65536 + c * 256 + d) / 16777216 % 256 = a := by
  omega

/-- The byte swap of a value assembled from four bytes reverses the bytes. -/
theorem bswap32_of_bytes (a b c d : Nat) (ha : a < 256) (hb : b < 256)
    (hc : c < 256) (hd : d < 256) :
    bswap32 (a * 16777216 + b * 65536 + c * 256 + d) =
      d * 16777216 + c * 65536 + b * 256 + a := by
  unfold bswap32
  omega

/-- The byte swap is an involution on u32 values. -/
theorem bswap32_bswap32 (x : Nat) (hx : x < 4294967296) :
    bswap32 (bswap32 x) = x := by
  have h : bswap32 x = x % 256 * 16777216 + x / 256 % 256 * 65536 +
      x / 65536 % 256 * 256 + x / 16777216 % 256 := rfl
  rw [h, bswap32_of_bytes _ _ _ _ (Nat.mod_lt _ (by norm_num))
    (Nat.mod_lt _ (by norm_num)) (Nat.mod_lt _ (by norm_num))
    (Nat.mod_lt _ (by norm_num))]
  clear h
  omega

/-- Claim C1: for every Address (arbitrary octets below 256 and arbitrary
16-bit port) the conversion to the engine native representation and back is
the identity, and for every native ENetAddress (u32 host) the conversion to
an Address and back reproduces the same host and port values. -/
theorem address_native_roundtrip :
    (∀ a : Address, a.o0 < 256 → a.o1 < 256 → a.o2 < 256 → a.o3 < 256 →
      Address.from_enet_address a.to_enet_address = a) ∧
    (∀ e : ENetAddress, e.host < 4294967296 →
      (Address.from_enet_address e).to_enet_address = e) := by
  constructor
  · rintro ⟨o0, o1, o2, o3, p⟩ h0 h1 h2 h3
    dsimp only at h0 h1 h2 h3
    simp only [Address.to_enet_address, Address.from_enet_address,
      readU32NetworkEndian, u32_to_be, Address.mk.injEq]
    rw [bswap32_of_bytes o0 o1 o2 o3 h0 h1 h2 h3]
    obtain ⟨e0, e1, e2, e3⟩ := bytes_extract o3 o2 o1 o0 h3 h2 h1 h0
    exact ⟨e0, e1, e2, e3, trivial⟩
  · rintro ⟨h, p⟩ hlt
    dsimp only at hlt
    simp only [Address.from_enet_address, Address.to_enet_address,
      readU32NetworkEndian, u32_to_be, ENetAddress.mk.injEq]
    have hb : h % 256 * 16777216 + h / 256 % 256 * 65536 + h / 65536 % 256 * 256 +
        h / 16777216 % 256 = bswap32 h := rfl
    rw [hb, bswap32_bswap32 h hlt]
    exact ⟨rfl, trivial⟩

/-- Witness for C1 at the concrete address 192.168.1.42:40000 and the
concrete native value 16885952 (192.168.1.1 in network order on a
little-endian host): both directions evaluated. -/
theorem address_native_roundtrip_witness :
    Address.from_enet_address (Address.to_enet_address ⟨192, 168, 1, 42, 40000⟩) =
      ⟨192, 168, 1, 42, 40000⟩ ∧
    Address.to_enet_address (Address.from_enet_address ⟨16885952, 40000⟩) =
      ⟨16885952, 40000⟩ :=
  ⟨address_native_roundtrip.1 ⟨192, 168, 1, 42, 40000⟩
      (by decide) (by decide) (by decide) (by decide),
    address_native_roundtrip.2 ⟨16885952, 40000⟩ (by decide)⟩

/-- Claim C2: the PacketMode flag mapping round-trips on all three variants,
the three encodings are pairwise distinct, and decoding any flag value other
than the three encodings is the fatal panic arm (modelled none), never a
recoverable result. -/
theorem packet_mode_flags_bijection :
    (∀ m : PacketMode, PacketMode.from_sys_flags m.to_sys_flags = some m) ∧
    (∀ m m' : PacketMode, m ≠ m' → m.to_sys_flags ≠ PacketMode.to_sys_flags m') ∧
    (∀ f : Nat, f ≠ PacketMode.UnreliableSequenced.to_sys_flags →
      f ≠ PacketMode.UnreliableUnsequenced.to_sys_flags →
      f ≠ PacketMode.ReliableSequenced.to_sys_flags →
      PacketMode.from_sys_flags f = none) := by
  refine ⟨by decide, by decide, ?_⟩
  intro f h0 h2 h1
  simp only [PacketMode.to_sys_flags, ENET_PACKET_FLAG_UNSEQUENCED,
    ENET_PACKET_FLAG_RELIABLE] at h0 h2 h1
  simp [PacketMode.from_sys_flags, ENET_PACKET_FLAG_UNSEQUENCED,
    ENET_PACKET_FLAG_RELIABLE, h0, h2, h1]

/-- Witness for C2: two distinct variants encode to distinct flags, and the
flag value 3 (outside the three encodings) decodes to the panic arm. -/
theorem packet_mode_flags_bijection_witness :
    PacketMode.UnreliableSequenced.to_sys_flags ≠
      PacketMode.ReliableSequenced.to_sys_flags ∧
    PacketMode.from_sys_flags 3 = none :=
  ⟨packet_mode_flags_bijection.2.1 PacketMode.UnreliableSequenced
      PacketMode.ReliableSequenced (by decide),
    packet_mode_flags_bijection.2.2 3 (by decide) (by decide) (by decide)⟩

/-- Claim C5: PacketMode::from_string returns some exactly for the three
tokens unreliable, unsequenced, reliable (mapped to the stated variants),
and returns none for every other string. -/
theorem from_string_exact_tokens :
    PacketMode.from_string "unreliable" = some PacketMode.UnreliableSequenced ∧
    PacketMode.from_string "unsequenced" = some PacketMode.UnreliableUnsequenced ∧
    PacketMode.from_string "reliable" = some PacketMode.ReliableSequenced ∧
    (∀ s : String, s ≠ "unreliable" → s ≠ "unsequenced" → s ≠ "reliable" →
      PacketMode.from_string s = none) := by
  refine ⟨by decide, by decide, by decide, ?_⟩
  intro s h1 h2 h3
  simp [PacketMode.from_string, h1, h2, h3]

/-- Witness for C5: the empty string and a case variant of a token both
yield none. -/
theorem from_string_exact_tokens_witness :
    PacketMode.from_string "" = none ∧ PacketMode.from_string "Reliable" = none :=
  ⟨from_string_exact_tokens.2.2.2 "" (by decide) (by decide) (by decide),
    from_string_exact_tokens.2.2.2 "Reliable" (by decide) (by decide) (by decide)⟩

/-- Claim C6: the predicate table — UnreliableSequenced is (reliable=false,
sequenced=true), UnreliableUnsequenced is (false, false), ReliableSequenced
is (true, true). -/
theorem packet_mode_predicate_table :
    (PacketMode.UnreliableSequenced.is_reliable = false ∧
      PacketMode.UnreliableSequenced.is_sequenced = true) ∧
    (PacketMode.UnreliableUnsequenced.is_reliable = false ∧
      PacketMode.UnreliableUnsequenced.is_sequenced = false) ∧
    (PacketMode.ReliableSequenced.is_reliable = true ∧
      PacketMode.ReliableSequenced.is_sequenced = true) := by
  decide

/-- Counterexample to C4 as stated: at n = 255 (= the engine constant
ENET_PROTOCOL_MAXIMUM_CHANNEL_COUNT) the encode-decode round trip of
ChannelLimit::Limited(n) does not return Limited(n): the stored value 255
decodes to Maximum. -/
theorem channel_limit_roundtrip_cex :
    0 < 255 ∧
    ChannelLimit.from_enet_usize (ChannelLimit.Limited 255).to_enet_usize ≠
      some (ChannelLimit.Limited 255) := by
  decide

/-- Claim C4 as amended: Maximum encodes to the sentinel 0, decoding a
stored 0 is the flagged panic (none), the round trip holds for every n > 0
other than ENET_PROTOCOL_MAXIMUM_CHANNEL_COUNT, and Limited of that constant
decodes back as Maximum instead. -/
theorem channel_limit_encoding :
    ChannelLimit.Maximum.to_enet_usize = 0 ∧
    ChannelLimit.from_enet_usize 0 = none ∧
    (∀ n : Nat, 0 < n → n ≠ ENET_PROTOCOL_MAXIMUM_CHANNEL_COUNT →
      ChannelLimit.from_enet_usize (ChannelLimit.Limited n).to_enet_usize =
        some (ChannelLimit.Limited n)) ∧
    ChannelLimit.from_enet_usize
        (ChannelLimit.Limited ENET_PROTOCOL_MAXIMUM_CHANNEL_COUNT).to_enet_usize =
      some ChannelLimit.Maximum := by
  refine ⟨rfl, by decide, ?_, by decide⟩
  intro n hpos hne
  simp only [ChannelLimit.to_enet_usize]
  unfold ChannelLimit.from_enet_usize
  rw [if_neg hne, if_neg (by omega)]

/-- Witness for C4 (amended): the round trip evaluated at n = 7. -/
theorem channel_limit_encoding_witness :
    ChannelLimit.from_enet_usize (ChannelLimit.Limited 7).to_enet_usize =
      some (ChannelLimit.Limited 7) :=
  channel_limit_encoding.2.2.1 7 (by decide) (by decide)

/-- Claim C9: the BandwidthLimit round trip holds for every value other than
Limited(0); Limited(0) encodes to the same engine value 0 as Unlimited and
decodes back as Unlimited, silently (from_enet_u32 is total, with no panic
arm, unlike the ChannelLimit decoder). -/
theorem bandwidth_limit_roundtrip :
    (∀ b : BandwidthLimit, b ≠ BandwidthLimit.Limited 0 →
      BandwidthLimit.from_enet_u32 b.to_enet_u32 = b) ∧
    (BandwidthLimit.Limited 0).to_enet_u32 = BandwidthLimit.Unlimited.to_enet_u32 ∧
    BandwidthLimit.from_enet_u32 (BandwidthLimit.Limited 0).to_enet_u32 =
      BandwidthLimit.Unlimited := by
  refine ⟨?_, rfl, by decide⟩
  rintro (_ | l) hne
  · rfl
  · have hl : l ≠ 0 := fun h => hne (by rw [h])
    simp [BandwidthLimit.to_enet_u32, BandwidthLimit.from_enet_u32, hl]

/-- Witness for C9: the round trip evaluated at Limited 5. -/
theorem bandwidth_limit_roundtrip_witness :
    BandwidthLimit.from_enet_u32 (BandwidthLimit.Limited 5).to_enet_u32 =
      BandwidthLimit.Limited 5 :=
  bandwidth_limit_roundtrip.1 (BandwidthLimit.Limited 5) (by decide)

/-- Claim C3: for every engine result code, Host::service and
Host::check_events produce exactly the tri-state: a positive result yields
Ok(Some(event)) (given the engine event-ready guarantee that the out-event
carries one of the three event tags), zero yields Ok(None), and a negative
result yields Err carrying the native code unchanged. -/
theorem service_check_events_tristate :
    ∀ (r : Int) (ev : SysEvent),
      (0 < r → 1 ≤ ev.kind → ev.kind ≤ 3 →
        ∃ e : Event, Host.service r ev = Except.ok (some e) ∧
          Host.check_events r ev = Except.ok (some e)) ∧
      (r = 0 → Host.service r ev = Except.ok none ∧
        Host.check_events r ev = Except.ok none) ∧
      (r < 0 → Host.service r ev = Except.error r ∧
        Host.check_events r ev = Except.error r) := by
  intro r ev
  refine ⟨?_, ?_, ?_⟩
  · intro hr hk1 hk3
    have hk : ev.kind = 1 ∨ ev.kind = 2 ∨ ev.kind = 3 := by omega
    rcases hk with h | h | h
    · exact ⟨Event.connected ev.peer,
        by simp [Host.service, Event.from_sys_event, hr, h],
        by simp [Host.check_events, Event.from_sys_event, hr, h]⟩
    · exact ⟨Event.disconnected ev.peer,
        by simp [Host.service, Event.from_sys_event, hr, h],
        by simp [Host.check_events, Event.from_sys_event, hr, h]⟩
    · exact ⟨Event.received ev.peer ev.data,
        by simp [Host.service, Event.from_sys_event, hr, h],
        by simp [Host.check_events, Event.from_sys_event, hr, h]⟩
  · intro hr
    subst hr
    exact ⟨rfl, rfl⟩
  · intro hr
    have h0 : ¬ (0 < r) := by omega
    have h1 : r ≠ 0 := by omega
    exact ⟨by simp [Host.service, h0, h1], by simp [Host.check_events, h0, h1]⟩

/-- Witness for C3: a positive result with a connect-tagged out-event yields
Ok(Some(event)), and the result -3 yields Err(-3). -/
theorem service_check_events_tristate_witness :
    (∃ e : Event, Host.service 1 ⟨1, 5, []⟩ = Except.ok (some e) ∧
      Host.check_events 1 ⟨1, 5, []⟩ = Except.ok (some e)) ∧
    Host.service (-3) ⟨0, 0, []⟩ = Except.error (-3) :=
  ⟨(service_check_events_tristate 1 ⟨1, 5, []⟩).1 (by decide) (by decide) (by decide),
    ((service_check_events_tristate (-3) ⟨0, 0, []⟩).2.2 (by decide)).1⟩

/-- Claim C7: Address::from_hostname returns an error carrying the native
code exactly when the engine resolve call reports a nonzero result; on a
zero result it returns the Address made of the resolved host (decoded with
u32::from_be and Ipv4Addr::from) and the caller port unchanged. -/
theorem from_hostname_spec :
    ∀ (res : Int) (resolvedHost port : Nat),
      (res ≠ 0 → Address.from_hostname res resolvedHost port = Except.error res) ∧
      (res = 0 → Address.from_hostname res resolvedHost port =
        Except.ok (Address.new (ipv4AddrFromU32 (u32_from_be resolvedHost)) port)) ∧
      (∀ a : Address, Address.from_hostname res resolvedHost port = Except.ok a →
        a.port = port) := by
  intro res resolvedHost port
  refine ⟨?_, ?_, ?_⟩
  · intro h
    simp [Address.from_hostname, h]
  · intro h
    simp [Address.from_hostname, h]
  · intro a ha
    unfold Address.from_hostname at ha
    by_cases h : res = 0
    · rw [if_neg (by simp [h])] at ha
      have hval : Address.new (ipv4AddrFromU32 (u32_from_be resolvedHost)) port = a := by
        exact Except.ok.inj ha
      rw [← hval]
      rfl
    · rw [if_pos h] at ha
      exact absurd ha (by simp)

/-- Witness for C7: a failing resolve (code -1) surfaces the code, and a
successful resolve of the native value 16885952 with port 80 yields the
decoded address with that port. -/
theorem from_hostname_spec_witness :
    Address.from_hostname (-1) 0 80 = Except.error (-1) ∧
    Address.from_hostname 0 16885952 80 =
      Except.ok (Address.new (ipv4AddrFromU32 (u32_from_be 16885952)) 80) :=
  ⟨(from_hostname_spec (-1) 0 80).1 (by decide),
    (from_hostname_spec 0 16885952 80).2.1 rfl⟩

/-- Counterexample to C8 as stated: on a host with one peer slot, the
out-of-range index 1 does not read engine memory unchecked — Host::get_peer
indexes a slice of length peerCount, so the access is caught by the slice
bounds check and panics (modelled none), a defined outcome differing from
the unchecked engine-memory read the claim asserts. -/
theorem get_peer_unchecked_cex :
    Host.peer_count ⟨1, demoMem⟩ = 1 ∧
    Host.get_peer ⟨1, demoMem⟩ 1 = none ∧
    Host.get_peer ⟨1, demoMem⟩ 1 ≠ some (Host.get_peer_unchecked ⟨1, demoMem⟩ 1) := by
  refine ⟨rfl, rfl, ?_⟩
  simp [Host.get_peer, Host.get_peer_unchecked]

/-- Claim C8 as amended: Host::get_peer is bounds-checked — for every host,
an index at or beyond peer_count() hits the slice bounds check and panics
(modelled none, defined behavior rather than undefined), and an in-range
index returns the peer at that slot of engine memory. -/
theorem get_peer_bounds_checked :
    ∀ (h : Host) (i : Nat),
      (h.peer_count ≤ i → Host.get_peer h i = none) ∧
      (i < h.peer_count → Host.get_peer h i = some (h.mem i)) := by
  intro h i
  constructor
  · intro hle
    unfold Host.peer_count at hle
    unfold Host.get_peer
    rw [if_neg (by omega)]
  · intro hlt
    unfold Host.peer_count at hlt
    unfold Host.get_peer
    rw [if_pos hlt]

/-- Witness for C8 (amended): on a two-slot host, index 5 panics on the
bounds check and index 1 returns the slot contents. -/
theorem get_peer_bounds_checked_witness :
    Host.get_peer ⟨2, demoMem⟩ 5 = none ∧
    Host.get_peer ⟨2, demoMem⟩ 1 = some (demoMem 1) :=
  ⟨(get_peer_bounds_checked ⟨2, demoMem⟩ 5).1 (by decide),
    (get_peer_bounds_checked ⟨2, demoMem⟩ 1).2 (by decide)⟩

/-- Claim C10: the two native-address decoders of src/address.rs agree — for
every native ENetAddress (u32 host), the success path of from_hostname
(Ipv4Addr::from of u32::from_be of the host, with the port) builds the same
Address as Address::from_enet_address (octets taken least significant byte
first, with the port). -/
theorem hostname_decoder_agreement :
    ∀ e : ENetAddress, e.host < 4294967296 →
      Address.new (ipv4AddrFromU32 (u32_from_be e.host)) e.port =
        Address.from_enet_address e := by
  rintro ⟨h, p⟩ hlt
  dsimp only at hlt
  simp only [Address.new, ipv4AddrFromU32, u32_from_be,
    Address.from_enet_address, Address.mk.injEq]
  have hb : bswap32 h = h % 256 * 16777216 + h / 256 % 256 * 65536 +
      h / 65536 % 256 * 256 + h / 16777216 % 256 := rfl
  rw [hb]
  obtain ⟨x1, x2, x3, x4⟩ := bytes_extract (h % 256) (h / 256 % 256)
    (h / 65536 % 256) (h / 16777216 % 256) (Nat.mod_lt _ (by norm_num))
    (Nat.mod_lt _ (by norm_num)) (Nat.mod_lt _ (by norm_num))
    (Nat.mod_lt _ (by norm_num))
  exact ⟨x4, x3, x2, x1, trivial⟩

/-- Witness for C10: the two decoders evaluated on the native value
16885952 with port 99. -/
theorem hostname_decoder_agreement_witness :
    Address.new (ipv4AddrFromU32 (u32_from_be 16885952)) 99 =
      Address.from_enet_address ⟨16885952, 99⟩ :=
  hostname_decoder_agreement ⟨16885952, 99⟩ (by decide)

end EnetRs
